import Mathlib

/-!
Verification development for the zero-router request-routing engine
(source: src/index.ts, class Zero).

The TypeScript source is shallowly embedded below:
  - JS Map and plain-object maps become association lists with
    insert-or-replace and delete operations,
  - the route trie RouteNode becomes a nested inductive,
  - path.split on the slash separator becomes splitSlash over the
    character data of the string,
  - async handlers and middleware become pure functions returning
    Except, with thrown values modelled by the JsErr type,
  - the URL pool becomes a list of URL objects, with new URL parsing
    abstracted as a parse parameter (it is platform code, external to
    the repository).
All definitions are translated from the source file, keeping its
names where Lean allows.
-/

set_option autoImplicit false

namespace ZeroRouter

/-! ## Association-list maps (model of JS Map and plain objects) -/

/-- Lookup in an association list; model of Map.get and of reading an
object property. -/
def getKV {κ α : Type} [BEq κ] : List (κ × α) → κ → Option α
  | [], _ => none
  | (k0, v0) :: rest, k => if k0 == k then some v0 else getKV rest k

/-- Insert-or-replace in an association list; model of Map.set and of
object property assignment (replaces in place, appends new keys). -/
def setKV {κ α : Type} [BEq κ] : List (κ × α) → κ → α → List (κ × α)
  | [], k, v => [(k, v)]
  | (k0, v0) :: rest, k, v =>
    if k0 == k then (k, v) :: rest else (k0, v0) :: setKV rest k v

/-- Route parameters: a mapping from parameter name to extracted
string, as the params object of the source. -/
abbrev Params := List (String × String)

/-- Removal of a key; model of the delete operator on the params
object. -/
def delParam (ps : Params) (k : String) : Params :=
  ps.filter (fun p => !(p.1 == k))

/-! ## Strings as JS strings: split, startsWith, slice, includes -/

/-- Model of JS String.prototype.split with separator "/", over the
character list of the string. -/
def splitSlashAux : List Char → List Char → List String
  | [], acc => [String.mk acc.reverse]
  | c :: cs, acc =>
    if c == '/' then String.mk acc.reverse :: splitSlashAux cs []
    else splitSlashAux cs (c :: acc)

/-- path.split on the slash separator. -/
def splitSlash (s : String) : List String :=
  splitSlashAux s.data []

/-- Model of part.startsWith with the one-character parameter marker. -/
def segStartsWithColon (s : String) : Bool :=
  match s.data with
  | [] => false
  | c :: _ => c == ':'

/-- Model of part.slice from index 1: the parameter name after the
marker. -/
def paramSuffix (s : String) : String :=
  String.mk (s.data.drop 1)

/-- Model of path.includes with a one-character needle. -/
def hasChar (s : String) (c : Char) : Bool :=
  s.data.contains c

/-- Model of Array.prototype.join with separator "/". -/
def joinSlash (l : List String) : String :=
  String.intercalate "/" l

/-! ## Method registry (HTTP_METHODS bitmask enumeration) -/

namespace HTTP_METHODS

def GET : Nat := 1

def POST : Nat := 2

def PUT : Nat := 4

def DELETE : Nat := 8

def PATCH : Nat := 16

def OPTIONS : Nat := 32

end HTTP_METHODS

/-- Model of the own-property part of the object lookup HTTP_METHODS
with a method string: the six own keys. The members the object
inherits from Object.prototype are modelled on top of this by
methodLookupJs further below. -/
def methodBit (m : String) : Option Nat :=
  if m = "GET" then some HTTP_METHODS.GET
  else if m = "POST" then some HTTP_METHODS.POST
  else if m = "PUT" then some HTTP_METHODS.PUT
  else if m = "DELETE" then some HTTP_METHODS.DELETE
  else if m = "PATCH" then some HTTP_METHODS.PATCH
  else if m = "OPTIONS" then some HTTP_METHODS.OPTIONS
  else none

/-- Method resolution in handle, restricted to method strings that
are not inherited Object.prototype names: the bitmask of the request
method, falling back to GET when the lookup is undefined. The full
resolution with the prototype chain is methodOfJs below; the two agree
away from the inherited names (lemma methodOfJs_bit in the theorem
section). -/
def methodOf (m : String) : Nat :=
  (methodBit m).getD HTTP_METHODS.GET

/-! ## The route trie (interface RouteNode) -/

/-- One trie node, as interface RouteNode of the source: a handlers
map keyed by method bitmask, literal children, at most one parametric
child with its bound name, and at most one wildcard child. -/
inductive RouteNode (H : Type) where
  | mk (handlers : List (Nat × H)) (statics : List (String × RouteNode H))
      (paramChild : Option (RouteNode H)) (paramName : Option String)
      (wildcard : Option (RouteNode H))

def RouteNode.handlers {H : Type} : RouteNode H → List (Nat × H)
  | .mk hs _ _ _ _ => hs

def RouteNode.statics {H : Type} : RouteNode H → List (String × RouteNode H)
  | .mk _ st _ _ _ => st

def RouteNode.paramChild {H : Type} : RouteNode H → Option (RouteNode H)
  | .mk _ _ pc _ _ => pc

def RouteNode.paramName {H : Type} : RouteNode H → Option String
  | .mk _ _ _ pn _ => pn

def RouteNode.wildcard {H : Type} : RouteNode H → Option (RouteNode H)
  | .mk _ _ _ _ wc => wc

/-- A freshly created empty node. -/
def RouteNode.empty {H : Type} : RouteNode H :=
  .mk [] [] none none none

/-- The trie-walking loop of Zero.add, over the path segments after
the leading separator: parameter-marker segments ensure the parametric
child and overwrite paramName, the wildcard-marker segment ensures the
wildcard child, and any other segment ensures a literal child; the
handler is stored at the terminal node under the method bitmask. -/
def addParts {H : Type} : RouteNode H → List String → Nat → H → RouteNode H
  | node, [], method, h =>
    .mk (setKV node.handlers method h) node.statics node.paramChild
      node.paramName node.wildcard
  | node, part :: rest, method, h =>
    if segStartsWithColon part then
      .mk node.handlers node.statics
        (some (addParts (node.paramChild.getD RouteNode.empty) rest method h))
        (some (paramSuffix part)) node.wildcard
    else if part == "*" then
      .mk node.handlers node.statics node.paramChild node.paramName
        (some (addParts (node.wildcard.getD RouteNode.empty) rest method h))
    else
      .mk node.handlers
        (setKV node.statics part
          (addParts ((getKV node.statics part).getD RouteNode.empty) rest method h))
        node.paramChild node.paramName node.wildcard

/-- The recursive trie descent Zero.findHandler, with the position
index encoded as the remaining suffix of the segment list. Precedence
per level: literal child first, then the parametric child with a
tentative binding that is deleted on failure, then the wildcard
child, whose handler for the method is returned directly. -/
def findHandler {H : Type} :
    RouteNode H → List String → Params → Nat → Option H × Params
  | node, [], params, method => (getKV node.handlers method, params)
  | node, part :: rest, params, method =>
    match
      (match getKV node.statics part with
       | some child => findHandler child rest params method
       | none => (none, params)) with
    | (some h, params1) => (some h, params1)
    | (none, params1) =>
      match node.paramChild with
      | some child =>
        let pname := node.paramName.getD ""
        match findHandler child rest (setKV params1 pname part) method with
        | (some h, params3) => (some h, params3)
        | (none, params3) =>
          (node.wildcard.bind (fun w => getKV w.handlers method),
            delParam params3 pname)
      | none =>
        (node.wildcard.bind (fun w => getKV w.handlers method), params1)

/-! ## Requests, responses, contexts, handlers, middleware -/

/-- The inbound request, reduced to the fields the router reads: its
url string and its method string. -/
structure Request where
  url : String
  method : String

/-- A JSON-serializable value, used for JSON response bodies. -/
inductive JsonVal where
  | str (s : String)
  | obj (fields : List (String × JsonVal))

/-- The body of a response: empty (new Response with no argument),
textual, or serialized JSON. -/
inductive RespBody where
  | empty
  | text (s : String)
  | json (v : JsonVal)

/-- An HTTP response: status, optional Content-Type header, body. -/
structure Response where
  status : Nat
  contentType : Option String
  body : RespBody

/-- new Response with no arguments: status 200, no header, no body. -/
def emptyResponse : Response :=
  ⟨200, none, RespBody.empty⟩

/-- The Not Found response of processRequest. -/
def notFoundResponse : Response :=
  ⟨404, none, RespBody.text "Not Found"⟩

/-- Reading the message field of a JSON object body, used to state
properties about error responses. -/
def jsonField : RespBody → String → Option JsonVal
  | RespBody.json (JsonVal.obj fields), k => getKV fields k
  | _, _ => none

/-- A thrown JS value: an Error instance carrying a message, or any
other throwable. -/
inductive JsErr where
  | error (message : String)
  | value (v : JsonVal)

/-- The per-request context (interface Context): params, the inbound
request, the environment, and the mutable response slot. -/
structure Ctx (Env : Type) where
  params : Params
  req : Request
  env : Env
  res : Response

/-- A handler return value: a structured Response passed through,
undefined, a string, or any other serializable value. -/
inductive HResult where
  | resp (r : Response)
  | undef
  | str (s : String)
  | other (v : JsonVal)

/-- A route handler: from the context to a result or a thrown value. -/
abbrev HandlerF (Env : Type) := Ctx Env → Except JsErr HResult

/-- A middleware: receives the context and the continuation; it may
transform the context, invoke the continuation, or throw. -/
abbrev Mw (Env : Type) :=
  Ctx Env → (Ctx Env → Except JsErr (Ctx Env)) → Except JsErr (Ctx Env)

/-- A registered middleware entry (interface MiddlewareNode). -/
structure MiddlewareNode (Env : Type) where
  path : String
  handler : Mw Env

/-- A pooled URL object, reduced to the pathname the router uses. -/
structure UrlObj where
  pathname : String

/-! ## The router (class Zero) -/

/-- The router state: route trie root, static route table, middleware
sequence, and URL object pool. -/
structure Zero (Env H : Type) where
  root : RouteNode H
  staticRoutes : List (String × H)
  middlewareRoutes : List (MiddlewareNode Env)
  urlPool : List UrlObj

/-- A router whose route handlers are actual handler functions. -/
abbrev ZeroF (Env : Type) := Zero Env (HandlerF Env)

/-- The constructor: empty tables and a pool pre-populated with
poolSize fresh URL objects (new URL of the placeholder has path "/"). -/
def mkRouter (Env H : Type) (poolSize : Nat) : Zero Env H :=
  ⟨RouteNode.empty, [], [], List.replicate poolSize ⟨"/"⟩⟩

/-- Zero.add: paths with neither a parameter marker nor a wildcard
marker go to the static route table keyed by the concatenation of the
method bitmask and the path; all other paths are inserted into the
trie, walking the segments after the leading separator. -/
def addRoute {Env H : Type} (z : Zero Env H) (method : Nat) (path : String)
    (h : H) : Zero Env H :=
  if !(hasChar path ':') && !(hasChar path '*') then
    { z with staticRoutes := setKV z.staticRoutes (toString method ++ path) h }
  else
    { z with root := addParts z.root ((splitSlash path).drop 1) method h }

def Zero.get {Env H : Type} (z : Zero Env H) (path : String) (h : H) :
    Zero Env H :=
  addRoute z HTTP_METHODS.GET path h

def Zero.post {Env H : Type} (z : Zero Env H) (path : String) (h : H) :
    Zero Env H :=
  addRoute z HTTP_METHODS.POST path h

def Zero.put {Env H : Type} (z : Zero Env H) (path : String) (h : H) :
    Zero Env H :=
  addRoute z HTTP_METHODS.PUT path h

def Zero.delete {Env H : Type} (z : Zero Env H) (path : String) (h : H) :
    Zero Env H :=
  addRoute z HTTP_METHODS.DELETE path h

/-- Zero.use with an explicit path pattern: append the middleware to
the ordered sequence. -/
def Zero.use {Env H : Type} (z : Zero Env H) (path : String) (m : Mw Env) :
    Zero Env H :=
  { z with middlewareRoutes := z.middlewareRoutes ++ [⟨path, m⟩] }

/-- Zero.use with a middleware only: the universal wildcard pattern. -/
def Zero.useAll {Env H : Type} (z : Zero Env H) (m : Mw Env) : Zero Env H :=
  Zero.use z "*" m

/-- Zero.matchMiddlewarePath: universal wildcard always matches; a
trailing-wildcard pattern matches on the joined leading segments; a
fixed-length pattern matches segmentwise with parameter placeholders. -/
def matchMiddlewarePath (middlewarePath requestPath : String) : Bool :=
  if middlewarePath == "*" then true
  else
    let mParts := splitSlash middlewarePath
    let rParts := splitSlash requestPath
    if mParts.getD (mParts.length - 1) "" == "*" then
      joinSlash (rParts.take mParts.dropLast.length) == joinSlash mParts.dropLast
    else if mParts.length != rParts.length then false
    else (mParts.zip rParts).all
      (fun pr => segStartsWithColon pr.1 || pr.1 == pr.2)

/-- Zero.formatResponse: pass a Response through, map undefined to the
default empty response, strings to text/plain, and any other value to
serialized JSON. -/
def formatResponse : HResult → Response
  | HResult.resp r => r
  | HResult.undef => emptyResponse
  | HResult.str s => ⟨200, some "text/plain", RespBody.text s⟩
  | HResult.other v => ⟨200, some "application/json", RespBody.json v⟩

/-- The message extracted by Zero.handleError: the message of an Error
instance, a generic fallback otherwise. -/
def errMessage : JsErr → String
  | JsErr.error m => m
  | JsErr.value _ => "Unknown error occurred"

/-- Zero.handleError: a 500 response whose JSON body has a single
field named error carrying the extracted message. -/
def handleError (e : JsErr) : Response :=
  ⟨500, some "application/json",
    RespBody.json (JsonVal.obj [("error", JsonVal.str (errMessage e))])⟩

/-- The middleware entries applicable to a path, in registration
order, as filtered in Zero.execute. -/
def applicableMws {Env : Type} (z : ZeroF Env) (path : String) :
    List (Mw Env) :=
  (z.middlewareRoutes.filter (fun mw => matchMiddlewarePath mw.path path)).map
    MiddlewareNode.handler

/-- The onion-model chain of Zero.execute: the continuation next runs
the following middleware, or, once the chain is exhausted, invokes the
handler and writes its normalized result into the response slot. -/
def runChain {Env : Type} :
    List (Mw Env) → HandlerF Env → Ctx Env → Except JsErr (Ctx Env)
  | [], handler, ctx =>
    match handler ctx with
    | Except.ok result => Except.ok { ctx with res := formatResponse result }
    | Except.error e => Except.error e
  | m :: rest, handler, ctx => m ctx (fun c => runChain rest handler c)

/-- Zero.execute: build the context with the default response, run the
applicable middleware chain around the handler, return the response
slot, converting any thrown value through handleError. -/
def execute {Env : Type} (z : ZeroF Env) (handler : HandlerF Env)
    (params : Params) (req : Request) (env : Env) (path : String) : Response :=
  match runChain (applicableMws z path) handler ⟨params, req, env, emptyResponse⟩ with
  | Except.ok c => c.res
  | Except.error e => handleError e

/-- Zero.processRequest: static route table first (key is the method
bitmask concatenated with the pathname), else trie descent from the
root with fresh params; no handler yields the Not Found response. -/
def processRequest {Env : Type} (z : ZeroF Env) (req : Request) (env : Env)
    (pathname : String) (method : Nat) : Response :=
  match getKV z.staticRoutes (toString method ++ pathname) with
  | some h => execute z h [] req env pathname
  | none =>
    match findHandler z.root ((splitSlash pathname).drop 1) [] method with
    | (some h, params) => execute z h params req env pathname
    | (none, _) => notFoundResponse

/-- The resolution phase of processRequest in isolation: which handler
(and which params) a method and pathname resolve to. -/
def resolveRoute {Env H : Type} (z : Zero Env H) (pathname : String)
    (method : Nat) : Option H × Params :=
  match getKV z.staticRoutes (toString method ++ pathname) with
  | some h => (some h, [])
  | none => findHandler z.root ((splitSlash pathname).drop 1) [] method

/-- Zero.getUrl: pop a pooled URL object (or allocate a fresh one when
the pool is empty), then project the parsed pathname onto it, falling
back to the raw string when parsing fails. The parse argument models
the external new URL platform constructor. -/
def getUrl (parse : String → Option String) (pool : List UrlObj)
    (url : String) : UrlObj × List UrlObj :=
  match pool with
  | [] =>
    match parse url with
    | some p => (⟨p⟩, [])
    | none => (⟨url⟩, [])
  | u :: rest =>
    match parse url with
    | some p => ({ u with pathname := p }, rest)
    | none => ({ u with pathname := url }, rest)

/-- Zero.handle: acquire a pooled URL object for the pathname, resolve
the method bitmask (unknown methods fall back to GET), process the
request, and release the URL object back to the pool on every exit
path. Returns the response together with the updated router state. -/
def handle {Env : Type} (parse : String → Option String) (z : ZeroF Env)
    (req : Request) (env : Env) : Response × ZeroF Env :=
  match getUrl parse z.urlPool req.url with
  | (url, pool1) =>
    (processRequest z req env url.pathname (methodOf req.method),
      { z with urlPool := url :: pool1 })

/-- A sequence of requests handled one after another against the same
router, threading the pool state. -/
def handleSeq {Env : Type} (parse : String → Option String) :
    ZeroF Env → List (Request × Env) → List Response × ZeroF Env
  | z, [] => ([], z)
  | z, (req, env) :: rest =>
    match handle parse z req env with
    | (resp, z1) =>
      match handleSeq parse z1 rest with
      | (resps, z2) => (resp :: resps, z2)

/-! ## The method lookup with the prototype chain

HTTP_METHODS is a plain object literal, so the lookup with an
arbitrary method string consults the prototype chain: names of
inherited Object.prototype members yield a truthy function (or, for
the proto accessor, an object), which is not nullish, so the fallback
to GET does not fire for them. The definitions above (methodBit,
methodOf, processRequest, handle) model the own-property part of that
lookup and are the restriction of the full semantics to method strings
that are not inherited names; the definitions below model the full
lookup, and the two layers are related by the agreement lemmas in the
theorem section. -/

/-- The runtime value of the lookup HTTP_METHODS with an arbitrary
method string: one of the six own bitmask entries, or a member
inherited from Object.prototype. -/
inductive MethodVal where
  | bit (n : Nat)
  | protoMember (name : String)

/-- The property names a plain object inherits from Object.prototype
and therefore answers on a bracket lookup. -/
def objectProtoKeys : List String :=
  ["constructor", "hasOwnProperty", "isPrototypeOf",
   "propertyIsEnumerable", "toLocaleString", "toString", "valueOf",
   "__defineGetter__", "__defineSetter__", "__lookupGetter__",
   "__lookupSetter__", "__proto__"]

/-- Model of HTTP_METHODS[m] with the prototype chain: the six own
keys yield their bitmask, inherited Object.prototype names yield the
inherited member, and anything else is undefined. -/
def methodLookupJs (m : String) : Option MethodVal :=
  match methodBit m with
  | some n => some (MethodVal.bit n)
  | none =>
    if m ∈ objectProtoKeys then some (MethodVal.protoMember m) else none

/-- The full method resolution of handle: the nullish fallback to GET
fires only when the lookup is undefined, not on a truthy inherited
member. -/
def methodOfJs (m : String) : MethodVal :=
  (methodLookupJs m).getD (MethodVal.bit HTTP_METHODS.GET)

/-- Model of the template-string coercion of the method value inside
the static-route key: a number prints in decimal, an inherited
function prints as the platform source text of a native function. -/
def methodKeyString : MethodVal → String
  | MethodVal.bit n => toString n
  | MethodVal.protoMember name =>
    "function " ++ name ++ "() \x7b [native code] \x7d"

/-- Model of Map.get keyed by the method value: the stored keys are
the six bitmask numbers, and same-value-zero equality never equates an
inherited function with a number. -/
def handlersGetJs {H : Type} (hs : List (Nat × H)) : MethodVal → Option H
  | MethodVal.bit n => getKV hs n
  | MethodVal.protoMember _ => none

/-- The trie descent of Zero.findHandler with the method value as it
exists at runtime: identical to findHandler except that the handler
lookups go through handlersGetJs. -/
def findHandlerJs {H : Type} :
    RouteNode H → List String → Params → MethodVal → Option H × Params
  | node, [], params, method => (handlersGetJs node.handlers method, params)
  | node, part :: rest, params, method =>
    match
      (match getKV node.statics part with
       | some child => findHandlerJs child rest params method
       | none => (none, params)) with
    | (some h, params1) => (some h, params1)
    | (none, params1) =>
      match node.paramChild with
      | some child =>
        let pname := node.paramName.getD ""
        match findHandlerJs child rest (setKV params1 pname part) method with
        | (some h, params3) => (some h, params3)
        | (none, params3) =>
          (node.wildcard.bind (fun w => handlersGetJs w.handlers method),
            delParam params3 pname)
      | none =>
        (node.wildcard.bind (fun w => handlersGetJs w.handlers method), params1)

/-- Zero.processRequest with the runtime method value: the static key
concatenates the coerced method value with the pathname, and the trie
descent uses the runtime handler lookup. -/
def processRequestJs {Env : Type} (z : ZeroF Env) (req : Request) (env : Env)
    (pathname : String) (method : MethodVal) : Response :=
  match getKV z.staticRoutes (methodKeyString method ++ pathname) with
  | some h => execute z h [] req env pathname
  | none =>
    match findHandlerJs z.root ((splitSlash pathname).drop 1) [] method with
    | (some h, params) => execute z h params req env pathname
    | (none, _) => notFoundResponse

/-- Zero.handle with the full method lookup of the source, prototype
chain included. -/
def handleJs {Env : Type} (parse : String → Option String) (z : ZeroF Env)
    (req : Request) (env : Env) : Response × ZeroF Env :=
  match getUrl parse z.urlPool req.url with
  | (url, pool1) =>
    (processRequestJs z req env url.pathname (methodOfJs req.method),
      { z with urlPool := url :: pool1 })

/-! ## Concrete routers used to settle the claims -/

/-- The precedence scenario: a parametric and a literal route at the
same position. -/
def zC1 : Zero Unit Nat :=
  ((mkRouter Unit Nat 0).get "/users/:id" 1).get "/users/static-name" 2

/-- A backtracking scenario inside the trie: a greedy literal descent
dead-ends and the parametric sibling must be retried. -/
def zC1b : Zero Unit Nat :=
  ((mkRouter Unit Nat 0).get "/users/x/:a/end" 3).get "/users/:id/p/q" 4

/-- A single parametric route. -/
def zC2 : Zero Unit Nat :=
  (mkRouter Unit Nat 0).get "/a/:x/b" 1

/-- A parametric route together with a wildcard sibling: a dead-end
parametric descent must fall through to the wildcard with its
tentative binding removed. -/
def zC2b : Zero Unit Nat :=
  ((mkRouter Unit Nat 0).get "/a/:x/b" 1).get "/a/*" 2

/-- A wildcard route. -/
def zC3 : Zero Unit Nat :=
  (mkRouter Unit Nat 0).get "/files/*" 7

/-- Two parametric routes with different parameter names registered at
the same trie position. -/
def zC7 : Zero Unit Nat :=
  ((mkRouter Unit Nat 0).get "/a/:x/b" 1).get "/a/:y/c" 2

/-- A router whose one handler throws an Error with the given
message. -/
def zBoom (msg : String) : ZeroF Unit :=
  (mkRouter Unit (HandlerF Unit) 1).get "/boom"
    (fun _ => Except.error (JsErr.error msg))

/-- A short-circuit action: overwrite the response slot with a fixed
response and never invoke the continuation. -/
def gShort : Ctx Unit → Except JsErr (Ctx Unit) :=
  fun c => Except.ok { c with res := ⟨418, none, RespBody.text "short"⟩ }

/-- A pass-through middleware. -/
def mwPass : Mw Unit :=
  fun c k => k c

/-- A plain handler returning a string. -/
def hdlHi : HandlerF Unit :=
  fun _ => Except.ok (HResult.str "hi")

/-- A handler returning a JSON value. -/
def hdlHealth : HandlerF Unit :=
  fun _ => Except.ok (HResult.other (JsonVal.obj [("status", JsonVal.str "healthy")]))

/-- A router with one static GET route, used to exhibit the behavior
of inherited-name method strings. -/
def zP : ZeroF Unit :=
  (mkRouter Unit (HandlerF Unit) 1).get "/x" hdlHi

/-- A router with a static route and two universal middleware, the
first of which short-circuits. -/
def zC5 : ZeroF Unit :=
  (((mkRouter Unit (HandlerF Unit) 0).get "/p" hdlHi).useAll
      (fun c _ => gShort c)).useAll mwPass

/-! ## Helper lemmas: association lists -/

theorem getKV_setKV_self {κ α : Type} [BEq κ] [LawfulBEq κ]
    (m : List (κ × α)) (k : κ) (v : α) : getKV (setKV m k v) k = some v := by
  induction m with
  | nil => simp [getKV, setKV]
  | cons p rest ih =>
    by_cases h : p.1 == k
    · simp [getKV, setKV, h]
    · simp [getKV, setKV, h, ih]

theorem getKV_setKV_ne {κ α : Type} [BEq κ] [LawfulBEq κ]
    (m : List (κ × α)) (k k2 : κ) (v : α) (h : k2 ≠ k) :
    getKV (setKV m k v) k2 = getKV m k2 := by
  induction m with
  | nil => simp [getKV, setKV, h, Ne.symm h]
  | cons p rest ih =>
    by_cases hp : p.1 == k
    · have hp2 : p.1 = k := by simpa using hp
      simp [getKV, setKV, hp, hp2, h, Ne.symm h]
    · simp [getKV, setKV, hp, ih]

theorem getKV_delParam_self (ps : Params) (k : String) :
    getKV (delParam ps k) k = none := by
  induction ps with
  | nil => simp [getKV, delParam]
  | cons p rest ih =>
    by_cases hp : p.1 == k
    · simpa [delParam, List.filter, hp] using ih
    · simpa [delParam, List.filter, hp, getKV] using ih

theorem getKV_delParam_ne (ps : Params) (k k2 : String) (h : k2 ≠ k) :
    getKV (delParam ps k) k2 = getKV ps k2 := by
  induction ps with
  | nil => simp [getKV, delParam]
  | cons p rest ih =>
    by_cases hp : p.1 == k
    · have hp2 : p.1 = k := by simpa using hp
      simp [delParam, List.filter, hp, getKV, hp2, Ne.symm h, ih]
      simpa [delParam] using ih
    · by_cases hq : p.1 == k2
      · simp [delParam, List.filter, hp, getKV, hq]
      · simp [delParam, List.filter, hp, getKV, hq]
        simpa [delParam] using ih

/-! ## Helper lemmas: strings and splitting -/

theorem strDataAppend (s t : String) : (s ++ t).data = s.data ++ t.data := by
  cases s; cases t; rfl

theorem strMkData (s : String) : String.mk s.data = s := by
  cases s; rfl

theorem strExt {s t : String} (h : s.data = t.data) : s = t := by
  cases s; cases t; exact congrArg String.mk h

theorem strAppendRightInj (a : String) {b c : String} (h : a ++ b = a ++ c) :
    b = c := by
  have hd : a.data ++ b.data = a.data ++ c.data := by
    rw [← strDataAppend, ← strDataAppend, h]
  exact strExt (List.append_cancel_left hd)

theorem splitSlashAux_slash (rest acc : List Char) :
    splitSlashAux ('/' :: rest) acc =
      String.mk acc.reverse :: splitSlashAux rest [] := by
  simp [splitSlashAux]

theorem splitSlashAux_no_slash (cs : List Char) (acc : List Char)
    (h : '/' ∉ cs) : splitSlashAux cs acc = [String.mk (acc.reverse ++ cs)] := by
  induction cs generalizing acc with
  | nil => simp [splitSlashAux]
  | cons c cs ih =>
    have hc : ¬(c == '/') = true := by
      simp only [beq_iff_eq]
      intro hcontr
      exact h (by simp [hcontr])
    have h2 : '/' ∉ cs := fun hm => h (List.mem_cons_of_mem _ hm)
    simp [splitSlashAux, hc, ih _ h2]

theorem splitSlashAux_concat (cs : List Char) (rest acc : List Char)
    (h : '/' ∉ cs) :
    splitSlashAux (cs ++ '/' :: rest) acc =
      String.mk (acc.reverse ++ cs) :: splitSlashAux rest [] := by
  induction cs generalizing acc with
  | nil => simp [splitSlashAux]
  | cons c cs ih =>
    have hc : ¬(c == '/') = true := by
      simp only [beq_iff_eq]
      intro hcontr
      exact h (by simp [hcontr])
    have h2 : '/' ∉ cs := fun hm => h (List.mem_cons_of_mem _ hm)
    simp [splitSlashAux, hc, ih _ h2]

theorem splitSlashAux_shape (cs : List Char) (acc : List Char) :
    ∃ a t, splitSlashAux cs acc = a :: t := by
  induction cs generalizing acc with
  | nil => exact ⟨_, _, rfl⟩
  | cons c cs ih =>
    by_cases hc : (c == '/') = true
    · refine ⟨String.mk acc.reverse, splitSlashAux cs [], ?_⟩
      simp [splitSlashAux, hc]
    · simpa [splitSlashAux, hc] using ih (c :: acc)

theorem splitSlashAux_char (c : Char) (hc : (c == '/') = false)
    (rest acc : List Char) :
    splitSlashAux (c :: rest) acc = splitSlashAux rest (c :: acc) := by
  simp [splitSlashAux, hc]

theorem splitSlash_users (s : String) (h : '/' ∉ s.data) :
    splitSlash ("/users/" ++ s) = ["", "users", s] := by
  have hd : ("/users/" ++ s).data =
      '/' :: (['u', 's', 'e', 'r', 's'] ++ ('/' :: s.data)) := by
    rw [strDataAppend]; rfl
  unfold splitSlash
  rw [hd, splitSlashAux_slash, splitSlashAux_concat _ _ _ (by decide),
    splitSlashAux_no_slash _ _ h]
  simp only [List.reverse_nil, List.nil_append, strMkData]

theorem splitSlash_files (s : String) :
    splitSlash ("/files/" ++ s) = "" :: "files" :: splitSlash s := by
  have hd : ("/files/" ++ s).data =
      '/' :: (['f', 'i', 'l', 'e', 's'] ++ ('/' :: s.data)) := by
    rw [strDataAppend]; rfl
  unfold splitSlash
  rw [hd, splitSlashAux_slash, splitSlashAux_concat _ _ _ (by decide)]
  rfl

theorem splitSlash_a_b (v : String) (h : '/' ∉ v.data) :
    splitSlash ("/a/" ++ v ++ "/b") = ["", "a", v, "b"] := by
  have hd : ("/a/" ++ v ++ "/b").data =
      '/' :: 'a' :: '/' :: (v.data ++ ('/' :: ['b'])) := by
    rw [strDataAppend, strDataAppend]; rfl
  unfold splitSlash
  rw [hd, splitSlashAux_slash, splitSlashAux_char 'a' (by decide),
    splitSlashAux_slash, splitSlashAux_concat _ _ _ h,
    splitSlashAux_no_slash _ _ (by decide)]
  simp only [List.reverse_nil, List.nil_append, strMkData]
  rfl

theorem splitSlash_a_c (v : String) (h : '/' ∉ v.data) :
    splitSlash ("/a/" ++ v ++ "/c") = ["", "a", v, "c"] := by
  have hd : ("/a/" ++ v ++ "/c").data =
      '/' :: 'a' :: '/' :: (v.data ++ ('/' :: ['c'])) := by
    rw [strDataAppend, strDataAppend]; rfl
  unfold splitSlash
  rw [hd, splitSlashAux_slash, splitSlashAux_char 'a' (by decide),
    splitSlashAux_slash, splitSlashAux_concat _ _ _ h,
    splitSlashAux_no_slash _ _ (by decide)]
  simp only [List.reverse_nil, List.nil_append, strMkData]
  rfl

/-! ## Helper lemma: a failed descent adds no bindings -/

/-- When the trie descent fails to yield a handler, every binding in
the params map it returns was already present on entry: a dead-end
branch never leaves a new (stale) binding behind. -/
theorem findHandler_fail_preserve {H : Type} :
    ∀ (rest : List String) (node : RouteNode H) (params : Params)
      (method : Nat) (k v : String),
      (findHandler node rest params method).1 = none →
      getKV (findHandler node rest params method).2 k = some v →
      getKV params k = some v := by
  intro rest
  induction rest with
  | nil =>
    intro node params method k v _ h2
    simpa [findHandler] using h2
  | cons part rest ih =>
    intro node params method k v h1 h2
    cases hstat : getKV node.statics part with
    | some child =>
      rcases hc : findHandler child rest params method with ⟨r1, ps1⟩
      cases r1 with
      | some h0 =>
        simp [findHandler, hstat, hc] at h1
      | none =>
        have sub1 : ∀ k v, getKV ps1 k = some v → getKV params k = some v := by
          intro k v hh
          exact ih child params method k v (by rw [hc]) (by rw [hc]; exact hh)
        cases hpc : node.paramChild with
        | none =>
          simp [findHandler, hstat, hc, hpc] at h2
          exact sub1 k v h2
        | some child2 =>
          rcases hc2 : findHandler child2 rest
              (setKV ps1 (node.paramName.getD "") part) method with ⟨r3, ps3⟩
          cases r3 with
          | some h0 =>
            simp [findHandler, hstat, hc, hpc, hc2] at h1
          | none =>
            simp [findHandler, hstat, hc, hpc, hc2] at h2
            by_cases hk : k = node.paramName.getD ""
            · rw [hk, getKV_delParam_self] at h2
              exact absurd h2 (by simp)
            · rw [getKV_delParam_ne _ _ _ hk] at h2
              have := ih child2 (setKV ps1 (node.paramName.getD "") part)
                method k v (by rw [hc2]) (by rw [hc2]; exact h2)
              rw [getKV_setKV_ne _ _ _ _ hk] at this
              exact sub1 k v this
    | none =>
      cases hpc : node.paramChild with
      | none =>
        simp [findHandler, hstat, hpc] at h2
        exact h2
      | some child2 =>
        rcases hc2 : findHandler child2 rest
            (setKV params (node.paramName.getD "") part) method with ⟨r3, ps3⟩
        cases r3 with
        | some h0 =>
          simp [findHandler, hstat, hc2, hpc] at h1
        | none =>
          simp [findHandler, hstat, hc2, hpc] at h2
          by_cases hk : k = node.paramName.getD ""
          · rw [hk, getKV_delParam_self] at h2
            exact absurd h2 (by simp)
          · rw [getKV_delParam_ne _ _ _ hk] at h2
            have := ih child2 (setKV params (node.paramName.getD "") part)
              method k v (by rw [hc2]) (by rw [hc2]; exact h2)
            rw [getKV_setKV_ne _ _ _ _ hk] at this
            exact this

/-! ## The claims -/

/-- Claim C1: Route resolution obeys the precedence order exact literal,
then named parameter, then wildcard, with backtracking at every trie
level: with both /users/:id and /users/static-name registered for GET,
a request to /users/static-name resolves to the literal route, a
request to /users/S for any other single segment S resolves to the
parametric route, and in a deeper trie a dead-end greedy literal
descent backtracks into the parametric sibling. -/
theorem claim_C1 :
    (resolveRoute zC1 "/users/static-name" HTTP_METHODS.GET).1 = some 2
    ∧ (∀ s : String, '/' ∉ s.data → s ≠ "static-name" →
        (resolveRoute zC1 ("/users/" ++ s) HTTP_METHODS.GET).1 = some 1)
    ∧ resolveRoute zC1b "/users/x/p/q" HTTP_METHODS.GET =
        (some 4, [("id", "x")]) := by
  refine ⟨rfl, ?_, rfl⟩
  intro s hs hne
  have hz : zC1.staticRoutes = [("1/users/static-name", 2)] := rfl
  have hroot : zC1.root = RouteNode.mk []
      [("users", RouteNode.mk [] []
        (some (RouteNode.mk [(1, 1)] [] none none none)) (some "id") none)]
      none none none := rfl
  have hkey : getKV [(("1/users/static-name" : String), (2 : Nat))]
      (toString HTTP_METHODS.GET ++ ("/users/" ++ s)) = none := by
    have hfold : toString HTTP_METHODS.GET ++ ("/users/" ++ s) =
        "1/users/" ++ s := by
      apply strExt
      rw [strDataAppend, strDataAppend, strDataAppend]
      rfl
    have hne2 : ¬ (("1/users/static-name" : String) ==
        toString HTTP_METHODS.GET ++ ("/users/" ++ s)) = true := by
      simp only [beq_iff_eq]
      intro heq
      rw [hfold] at heq
      have h2 : ("1/users/" ++ "static-name" : String) = "1/users/" ++ s := by
        rw [← heq]; rfl
      exact hne (strAppendRightInj "1/users/" h2).symm
    simp [getKV, hne2]
  simp only [resolveRoute, hz, hkey, hroot, splitSlash_users s hs,
    List.drop_succ_cons, List.drop_zero]
  simp [findHandler, getKV, setKV, HTTP_METHODS.GET, RouteNode.handlers,
    RouteNode.statics, RouteNode.paramChild, RouteNode.paramName,
    RouteNode.wildcard]

/-- Claim C1 witness: the precedence instance at the concrete segment
anything-else. -/
theorem claim_C1_witness :
    (resolveRoute zC1 ("/users/" ++ "anything-else") HTTP_METHODS.GET).1 =
      some 1 :=
  claim_C1.2.1 "anything-else" (by decide) (by decide)

/-- Claim C2: a registered parametric route /a/:x/b binds params.x to the
matched segment; a dead-end parametric descent removes its tentative
binding before a lower-precedence branch is tried, so a failed descent
never returns a binding that was not already present, and a wildcard
match reached after a parametric dead end sees no stale binding. -/
theorem claim_C2 :
    (∀ v : String, '/' ∉ v.data →
        resolveRoute zC2 ("/a/" ++ v ++ "/b") HTTP_METHODS.GET =
          (some 1, [("x", v)]))
    ∧ (∀ (H : Type) (node : RouteNode H) (rest : List String)
        (params : Params) (method : Nat) (k v : String),
        (findHandler node rest params method).1 = none →
        getKV (findHandler node rest params method).2 k = some v →
        getKV params k = some v)
    ∧ resolveRoute zC2b "/a/v/c" HTTP_METHODS.GET = (some 2, []) := by
  refine ⟨?_, ?_, rfl⟩
  · intro v hv
    have hroot : zC2.root = RouteNode.mk []
        [("a", RouteNode.mk [] []
          (some (RouteNode.mk []
            [("b", RouteNode.mk [(1, 1)] [] none none none)] none none none))
          (some "x") none)]
        none none none := rfl
    simp only [resolveRoute, hroot, splitSlash_a_b v hv,
      List.drop_succ_cons, List.drop_zero]
    simp [getKV, findHandler, setKV, HTTP_METHODS.GET, RouteNode.handlers,
      RouteNode.statics, RouteNode.paramChild, RouteNode.paramName,
      RouteNode.wildcard]
  · intro H node rest params method k v h1 h2
    exact findHandler_fail_preserve rest node params method k v h1 h2

/-- Claim C2 witness: the binding property at the concrete value 42. -/
theorem claim_C2_witness :
    resolveRoute zC2 ("/a/" ++ "42" ++ "/b") HTTP_METHODS.GET =
      (some 1, [("x", "42")]) :=
  claim_C2.1 "42" (by decide)

/-- Claim C3: with /files/* registered for GET, a request to /files/S for
any suffix S, of any number of further segments, resolves to the
wildcard handler: the wildcard child's handler is returned directly,
with no constraint on how many segments remain. -/
theorem claim_C3 :
    (∀ s : String,
        (resolveRoute zC3 ("/files/" ++ s) HTTP_METHODS.GET).1 = some 7)
    ∧ (resolveRoute zC3 "/files/a" HTTP_METHODS.GET).1 = some 7
    ∧ (resolveRoute zC3 "/files/a/b/c" HTTP_METHODS.GET).1 = some 7 := by
  refine ⟨?_, rfl, rfl⟩
  intro s
  have hroot : zC3.root = RouteNode.mk []
      [("files", RouteNode.mk [] [] none none
        (some (RouteNode.mk [(1, 7)] [] none none none)))]
      none none none := rfl
  rcases splitSlashAux_shape s.data [] with ⟨a, t, hsp⟩
  have hsp2 : splitSlash s = a :: t := hsp
  simp only [resolveRoute, hroot, splitSlash_files s, hsp2,
    List.drop_succ_cons, List.drop_zero]
  simp [getKV, findHandler, HTTP_METHODS.GET, RouteNode.handlers,
    RouteNode.statics, RouteNode.paramChild, RouteNode.paramName,
    RouteNode.wildcard]

/-- Claim C7: a node has one parametric child and the parameter name is
last-write-wins: after registering /a/:x/b then /a/:y/c, the node at
position a carries paramName y, and every resolution through that
position binds the matched segment under y, for both routes. -/
theorem claim_C7 :
    ((getKV zC7.root.statics "a").map RouteNode.paramName) = some (some "y")
    ∧ (∀ v : String, '/' ∉ v.data →
        resolveRoute zC7 ("/a/" ++ v ++ "/b") HTTP_METHODS.GET =
          (some 1, [("y", v)])
        ∧ resolveRoute zC7 ("/a/" ++ v ++ "/c") HTTP_METHODS.GET =
          (some 2, [("y", v)])) := by
  refine ⟨rfl, ?_⟩
  intro v hv
  have hroot : zC7.root = RouteNode.mk []
      [("a", RouteNode.mk [] []
        (some (RouteNode.mk []
          [("b", RouteNode.mk [(1, 1)] [] none none none),
           ("c", RouteNode.mk [(1, 2)] [] none none none)] none none none))
        (some "y") none)]
      none none none := rfl
  constructor
  · simp only [resolveRoute, hroot, splitSlash_a_b v hv,
      List.drop_succ_cons, List.drop_zero]
    simp [getKV, findHandler, setKV, HTTP_METHODS.GET, RouteNode.handlers,
      RouteNode.statics, RouteNode.paramChild, RouteNode.paramName,
      RouteNode.wildcard]
  · simp only [resolveRoute, hroot, splitSlash_a_c v hv,
      List.drop_succ_cons, List.drop_zero]
    simp [getKV, findHandler, setKV, HTTP_METHODS.GET, RouteNode.handlers,
      RouteNode.statics, RouteNode.paramChild, RouteNode.paramName,
      RouteNode.wildcard]

/-- Claim C7 witness: both routes resolve through the overwritten name y at
the concrete value 42. -/
theorem claim_C7_witness :
    resolveRoute zC7 ("/a/" ++ "42" ++ "/b") HTTP_METHODS.GET =
      (some 1, [("y", "42")])
    ∧ resolveRoute zC7 ("/a/" ++ "42" ++ "/c") HTTP_METHODS.GET =
      (some 2, [("y", "42")]) :=
  claim_C7.2 "42" (by decide)

/-- Claim C8: a path with neither a parameter marker nor a wildcard marker
is registered in the static route table, keyed by the method bitmask
and path, without touching the trie; a request with that method and
exact path is resolved by the static-table lookup, before any trie
descent, and dispatched to that handler. -/
theorem claim_C8 :
    ∀ (Env : Type) (z : ZeroF Env) (method : Nat) (path : String)
      (h : HandlerF Env) (req : Request) (env : Env),
      hasChar path ':' = false → hasChar path '*' = false →
      ((addRoute z method path h).root = z.root
      ∧ getKV (addRoute z method path h).staticRoutes
          (toString method ++ path) = some h
      ∧ processRequest (addRoute z method path h) req env path method =
          execute (addRoute z method path h) h [] req env path) := by
  intro Env z method path h req env h1 h2
  have haddr : addRoute z method path h =
      { z with staticRoutes := setKV z.staticRoutes (toString method ++ path) h } := by
    simp [addRoute, h1, h2]
  refine ⟨by rw [haddr], ?_, ?_⟩
  · rw [haddr]
    exact getKV_setKV_self _ _ _
  · have hget : getKV (addRoute z method path h).staticRoutes
        (toString method ++ path) = some h := by
      rw [haddr]
      exact getKV_setKV_self _ _ _
    simp only [processRequest, hget]

/-- Claim C8 witness: the static fast path at the concrete route /health. -/
theorem claim_C8_witness :
    ((addRoute (mkRouter Unit (HandlerF Unit) 0) HTTP_METHODS.GET "/health"
        hdlHealth).root = (mkRouter Unit (HandlerF Unit) 0).root
    ∧ getKV (addRoute (mkRouter Unit (HandlerF Unit) 0) HTTP_METHODS.GET
        "/health" hdlHealth).staticRoutes
        (toString HTTP_METHODS.GET ++ "/health") = some hdlHealth
    ∧ processRequest (addRoute (mkRouter Unit (HandlerF Unit) 0)
        HTTP_METHODS.GET "/health" hdlHealth) ⟨"u", "GET"⟩ () "/health"
        HTTP_METHODS.GET =
        execute (addRoute (mkRouter Unit (HandlerF Unit) 0) HTTP_METHODS.GET
          "/health" hdlHealth) hdlHealth [] ⟨"u", "GET"⟩ () "/health") :=
  claim_C8 Unit (mkRouter Unit (HandlerF Unit) 0) HTTP_METHODS.GET "/health"
    hdlHealth ⟨"u", "GET"⟩ () (by decide) (by decide)

/-- Claim C9: when the request url cannot be parsed, the raw string becomes
the pathname on the pooled URL object and handle returns the normal
processing of that raw path, surfacing no error. -/
theorem claim_C9 :
    ∀ (Env : Type) (parse : String → Option String) (z : ZeroF Env)
      (req : Request) (env : Env),
      parse req.url = none →
      ((getUrl parse z.urlPool req.url).1.pathname = req.url
      ∧ (handle parse z req env).1 =
          processRequest z req env req.url (methodOf req.method)) := by
  intro Env parse z req env hp
  cases hz : z.urlPool with
  | nil => exact ⟨by simp [getUrl, hz, hp], by simp [handle, getUrl, hz, hp]⟩
  | cons u rest => exact ⟨by simp [getUrl, hz, hp], by simp [handle, getUrl, hz, hp]⟩

/-- Claim C9 witness: an unparseable url string is used as the path. -/
theorem claim_C9_witness :
    (getUrl (fun _ => none) (mkRouter Unit (HandlerF Unit) 1).urlPool
        "::bad::").1.pathname = "::bad::"
    ∧ (handle (fun _ => none) (mkRouter Unit (HandlerF Unit) 1)
        ⟨"::bad::", "GET"⟩ ()).1 =
        processRequest (mkRouter Unit (HandlerF Unit) 1) ⟨"::bad::", "GET"⟩ ()
          "::bad::" (methodOf "GET") :=
  claim_C9 Unit (fun _ => none) (mkRouter Unit (HandlerF Unit) 1)
    ⟨"::bad::", "GET"⟩ () rfl

/-- An option bound into a constantly empty function is empty. -/
theorem bind_const_none {a b : Type} (o : Option a) :
    o.bind (fun _ => (none : Option b)) = none := by
  cases o <;> rfl

/-- Appended strings whose left parts start with different characters
are different. -/
theorem strAppend_ne_of_head {a b : String} (c d : Char) (x y : String)
    (ha : a.data.head? = some c) (hb : b.data.head? = some d)
    (hcd : c ≠ d) : a ++ x ≠ b ++ y := by
  intro h
  have hd2 : a.data ++ x.data = b.data ++ y.data := by
    rw [← strDataAppend, ← strDataAppend, h]
  cases a with
  | mk da =>
    cases b with
    | mk db =>
      cases da with
      | nil => simp at ha
      | cons c0 ta =>
        cases db with
        | nil => simp at hb
        | cons d0 tb =>
          simp at ha hb hd2
          exact hcd (by rw [← ha, ← hb]; exact hd2.1)

/-- A lookup misses when no stored key equals the queried key. -/
theorem getKV_none_of_ne {α : Type} (l : List (String × α)) (key : String)
    (h : ∀ kv ∈ l, ¬ kv.1 = key) : getKV l key = none := by
  induction l with
  | nil => rfl
  | cons p rest ih =>
    have hp : ¬ p.1 = key := h p (by simp)
    rcases p with ⟨k0, v0⟩
    simp only [getKV]
    rw [if_neg (by simpa using hp)]
    exact ih (fun kv hkv => h kv (by simp [hkv]))

/-- None of the inherited Object.prototype names is an own key of
HTTP_METHODS. -/
theorem protoKeys_methodBit : ∀ m ∈ objectProtoKeys, methodBit m = none := by
  decide

/-- With a bitmask method value, the runtime trie descent is the trie
descent of findHandler. -/
theorem findHandlerJs_bit {H : Type} :
    ∀ (parts : List String) (node : RouteNode H) (params : Params) (n : Nat),
      findHandlerJs node parts params (MethodVal.bit n) =
        findHandler node parts params n := by
  intro parts
  induction parts with
  | nil => intro node params n; rfl
  | cons part rest ih =>
    intro node params n
    simp only [findHandlerJs, findHandler, handlersGetJs, ih]

/-- With an inherited member as the method value, every handler lookup
misses, so the trie descent yields no handler at any node. -/
theorem findHandlerJs_proto_none {H : Type} :
    ∀ (parts : List String) (node : RouteNode H) (params : Params)
      (name : String),
      (findHandlerJs node parts params (MethodVal.protoMember name)).1 =
        none := by
  intro parts
  induction parts with
  | nil => intro node params name; rfl
  | cons part rest ih =>
    intro node params name
    cases hstat : getKV node.statics part with
    | some child =>
      rcases hc : findHandlerJs child rest params (MethodVal.protoMember name)
        with ⟨r1, ps1⟩
      have hr1 : r1 = none := by
        have hh := ih child params name
        rw [hc] at hh
        exact hh
      subst hr1
      cases hpc : node.paramChild with
      | none =>
        simp [findHandlerJs, hstat, hc, hpc, handlersGetJs, bind_const_none]
      | some child2 =>
        rcases hc2 : findHandlerJs child2 rest
            (setKV ps1 (node.paramName.getD "") part)
            (MethodVal.protoMember name) with ⟨r3, ps3⟩
        have hr3 : r3 = none := by
          have hh := ih child2 (setKV ps1 (node.paramName.getD "") part) name
          rw [hc2] at hh
          exact hh
        subst hr3
        simp [findHandlerJs, hstat, hc, hpc, hc2, handlersGetJs,
          bind_const_none]
    | none =>
      cases hpc : node.paramChild with
      | none =>
        simp [findHandlerJs, hstat, hpc, handlersGetJs, bind_const_none]
      | some child2 =>
        rcases hc2 : findHandlerJs child2 rest
            (setKV params (node.paramName.getD "") part)
            (MethodVal.protoMember name) with ⟨r3, ps3⟩
        have hr3 : r3 = none := by
          have hh := ih child2 (setKV params (node.paramName.getD "") part) name
          rw [hc2] at hh
          exact hh
        subst hr3
        simp [findHandlerJs, hstat, hpc, hc2, handlersGetJs, bind_const_none]

/-- Away from the inherited Object.prototype names the full method
resolution agrees with the simplified bitmask resolution. -/
theorem methodOfJs_bit (m : String) (hm : m ∉ objectProtoKeys) :
    methodOfJs m = MethodVal.bit (methodOf m) := by
  cases hb : methodBit m with
  | some n => simp [methodOfJs, methodLookupJs, methodOf, hb]
  | none => simp [methodOfJs, methodLookupJs, methodOf, hb, hm]

/-- With a bitmask method value, the runtime request processing is
processRequest. -/
theorem processRequestJs_bit {Env : Type} (z : ZeroF Env) (req : Request)
    (env : Env) (pathname : String) (n : Nat) :
    processRequestJs z req env pathname (MethodVal.bit n) =
      processRequest z req env pathname n := by
  simp only [processRequestJs, processRequest, methodKeyString,
    findHandlerJs_bit]

/-- Away from the inherited Object.prototype names, handleJs and the
simplified handle coincide, so the simplified layer used by the other
claims is the restriction of the full semantics. -/
theorem handleJs_agree {Env : Type} (parse : String → Option String)
    (z : ZeroF Env) (req : Request) (env : Env)
    (hm : req.method ∉ objectProtoKeys) :
    handleJs parse z req env = handle parse z req env := by
  rcases hgu : getUrl parse z.urlPool req.url with ⟨url, pool1⟩
  simp [handleJs, handle, hgu, methodOfJs_bit req.method hm,
    processRequestJs_bit]

/-- The static-route lookup misses for an inherited-member method
value whenever every stored key was produced by a registration with
one of the six bitmasks. -/
theorem processRequestJs_proto {Env : Type} (z : ZeroF Env) (req : Request)
    (env : Env) (pathname name : String)
    (hkeys : ∀ kv ∈ z.staticRoutes, ∃ n p,
      (n = 1 ∨ n = 2 ∨ n = 4 ∨ n = 8 ∨ n = 16 ∨ n = 32)
      ∧ kv.1 = toString n ++ p) :
    processRequestJs z req env pathname (MethodVal.protoMember name) =
      notFoundResponse := by
  have hhead : (methodKeyString (MethodVal.protoMember name)).data.head? =
      some 'f' := by
    show (("function " ++ name ++ "() \x7b [native code] \x7d")).data.head? =
      some 'f'
    rw [strDataAppend, strDataAppend]
    rfl
  have hstat : getKV z.staticRoutes
      (methodKeyString (MethodVal.protoMember name) ++ pathname) = none := by
    apply getKV_none_of_ne
    intro kv hkv
    rcases hkeys kv hkv with ⟨n, p, hn, hkey⟩
    rw [hkey]
    rcases hn with rfl | rfl | rfl | rfl | rfl | rfl
    · exact strAppend_ne_of_head '1' 'f' p pathname rfl hhead (by decide)
    · exact strAppend_ne_of_head '2' 'f' p pathname rfl hhead (by decide)
    · exact strAppend_ne_of_head '4' 'f' p pathname rfl hhead (by decide)
    · exact strAppend_ne_of_head '8' 'f' p pathname rfl hhead (by decide)
    · exact strAppend_ne_of_head '1' 'f' p pathname rfl hhead (by decide)
    · exact strAppend_ne_of_head '3' 'f' p pathname rfl hhead (by decide)
  rcases hf : findHandlerJs z.root ((splitSlash pathname).drop 1) []
      (MethodVal.protoMember name) with ⟨r, ps⟩
  have hr : r = none := by
    have hh := findHandlerJs_proto_none ((splitSlash pathname).drop 1) z.root
      [] name
    rw [hf] at hh
    exact hh
  subst hr
  simp only [processRequestJs, hstat, hf]

/-- Claim C10 (amended): a method string that is neither one of the
six enumerated methods nor an inherited Object.prototype name resolves
to the GET bitmask and handle dispatches it exactly as GET; for an
inherited Object.prototype name the lookup yields the truthy inherited
member, the GET fallback does not fire, the trie lookup misses at
every node, and request processing returns the Not Found response for
every router whose static keys come from bitmask registrations. -/
theorem claim_C10 :
    (∀ m : String,
      m ∉ (["GET", "POST", "PUT", "DELETE", "PATCH", "OPTIONS"] : List String) →
      m ∉ objectProtoKeys →
      (methodOfJs m = MethodVal.bit HTTP_METHODS.GET
      ∧ ∀ (Env : Type) (parse : String → Option String) (z : ZeroF Env)
          (req : Request) (env : Env), req.method = m →
          (handleJs parse z req env).1 =
            processRequestJs z req env
              (getUrl parse z.urlPool req.url).1.pathname
              (MethodVal.bit HTTP_METHODS.GET)))
    ∧ (∀ m : String, m ∈ objectProtoKeys →
      (methodLookupJs m = some (MethodVal.protoMember m)
      ∧ methodOfJs m = MethodVal.protoMember m
      ∧ (∀ (H : Type) (parts : List String) (node : RouteNode H)
          (params : Params),
          (findHandlerJs node parts params (MethodVal.protoMember m)).1 =
            none)
      ∧ ∀ (Env : Type) (z : ZeroF Env) (req : Request) (env : Env)
          (pathname : String),
          (∀ kv ∈ z.staticRoutes, ∃ n p,
            (n = 1 ∨ n = 2 ∨ n = 4 ∨ n = 8 ∨ n = 16 ∨ n = 32)
            ∧ kv.1 = toString n ++ p) →
          processRequestJs z req env pathname (MethodVal.protoMember m) =
            notFoundResponse)) := by
  constructor
  · intro m hm6 hmp
    simp only [List.mem_cons, List.not_mem_nil, or_false, not_or] at hm6
    obtain ⟨h1, h2, h3, h4, h5, h6⟩ := hm6
    have hmb : methodBit m = none := by
      simp [methodBit, h1, h2, h3, h4, h5, h6]
    have hmv : methodOfJs m = MethodVal.bit HTTP_METHODS.GET := by
      simp [methodOfJs, methodLookupJs, hmb, hmp]
    refine ⟨hmv, ?_⟩
    intro Env parse z req env hreq
    rcases hgu : getUrl parse z.urlPool req.url with ⟨url, pool1⟩
    simp [handleJs, hgu, hreq, hmv]
  · intro m hm
    have hmb : methodBit m = none := protoKeys_methodBit m hm
    have hlk : methodLookupJs m = some (MethodVal.protoMember m) := by
      simp [methodLookupJs, hmb, hm]
    refine ⟨hlk, by simp [methodOfJs, hlk], ?_, ?_⟩
    · intro H parts node params
      exact findHandlerJs_proto_none parts node params m
    · intro Env z req env pathname hkeys
      exact processRequestJs_proto z req env pathname m hkeys

/-- Claim C10 witness: FETCH still dispatches as GET, while the
inherited name toString resolves to the inherited member and a request
with it misses the registered GET route of zP. -/
theorem claim_C10_witness :
    methodOfJs "FETCH" = MethodVal.bit HTTP_METHODS.GET
    ∧ methodOfJs "toString" = MethodVal.protoMember "toString"
    ∧ processRequestJs zP ⟨"u", "toString"⟩ () "/x"
        (MethodVal.protoMember "toString") = notFoundResponse := by
  have h1 := (claim_C10.1 "FETCH" (by decide) (by decide)).1
  have h2 := claim_C10.2 "toString" (by decide)
  refine ⟨h1, h2.2.1, ?_⟩
  apply h2.2.2.2 Unit zP ⟨"u", "toString"⟩ () "/x"
  intro kv hkv
  have hz : zP.staticRoutes = [("1/x", hdlHi)] := rfl
  rw [hz] at hkv
  simp only [List.mem_singleton] at hkv
  subst hkv
  exact ⟨1, "/x", Or.inl rfl, rfl⟩

/-- Claim C10 counterexample to the claim as stated: the method string
toString is outside the six enumerated methods, yet a request with it
to the registered route of zP returns Not Found, while the same
request with method GET returns the handler response; the two
responses differ, so such a request is not dispatched as if its method
were GET. -/
theorem claim_C10_counterexample :
    ("toString" ∉
      (["GET", "POST", "PUT", "DELETE", "PATCH", "OPTIONS"] : List String))
    ∧ (handleJs (fun _ => some "/x") zP ⟨"http://h/x", "toString"⟩ ()).1 =
        notFoundResponse
    ∧ (handleJs (fun _ => some "/x") zP ⟨"http://h/x", "GET"⟩ ()).1 =
        ⟨200, some "text/plain", RespBody.text "hi"⟩
    ∧ notFoundResponse ≠
        (⟨200, some "text/plain", RespBody.text "hi"⟩ : Response) := by
  refine ⟨by decide, rfl, rfl, ?_⟩
  intro h
  exact absurd (congrArg Response.status h) (by decide)

/-- Every call of handle pops at most one pooled URL object and pushes
exactly one back, so the pool length after a request is the previous
length when the pool was nonempty, and one when it was empty. -/
theorem handle_pool {Env : Type} (parse : String → Option String)
    (z : ZeroF Env) (req : Request) (env : Env) :
    ((handle parse z req env).2).urlPool.length = max z.urlPool.length 1 := by
  cases hz : z.urlPool with
  | nil => cases hp : parse req.url <;> simp [handle, getUrl, hz, hp]
  | cons u rest =>
    cases hp : parse req.url <;> simp [handle, getUrl, hz, hp]

/-- Handling a request sequence yields one response per request and
keeps the pool balanced. -/
theorem handleSeq_len {Env : Type} (parse : String → Option String) :
    ∀ (reqs : List (Request × Env)) (z : ZeroF Env),
      (handleSeq parse z reqs).1.length = reqs.length
      ∧ ((handleSeq parse z reqs).2).urlPool.length =
          (if reqs.length = 0 then z.urlPool.length
           else max z.urlPool.length 1) := by
  intro reqs
  induction reqs with
  | nil => intro z; simp [handleSeq]
  | cons p rest ih =>
    intro z
    rcases p with ⟨req, env⟩
    rcases hh : handle parse z req env with ⟨resp, z1⟩
    rcases hs : handleSeq parse z1 rest with ⟨resps, z2⟩
    have hp1 : z1.urlPool.length = max z.urlPool.length 1 := by
      have hpl := handle_pool parse z req env
      rw [hh] at hpl
      exact hpl
    have ihz := ih z1
    rw [hs] at ihz
    have hlen := ihz.1
    have hpool := ihz.2
    constructor
    · simp [handleSeq, hh, hs]
      exact hlen
    · simp only [handleSeq, hh, hs, List.length_cons]
      have hz2 : z2.urlPool.length = max z.urlPool.length 1 := by
        by_cases hr : rest.length = 0 <;> simp [hr] at hpool <;> omega
      simp [hz2]

/-- Claim C6: pool balance: every acquire in handle is matched by exactly
one release on every exit path, so one request leaves the pool at its
previous occupancy (or one, from an empty pool, because acquire then
allocates a fresh object), a sequence of N requests produces exactly N
responses, and the final occupancy never falls below its start except
to the floor of one. -/
theorem claim_C6 :
    ∀ (Env : Type) (parse : String → Option String) (z : ZeroF Env)
      (req : Request) (env : Env) (reqs : List (Request × Env)),
      ((handle parse z req env).2).urlPool.length = max z.urlPool.length 1
      ∧ (handleSeq parse z reqs).1.length = reqs.length
      ∧ ((handleSeq parse z reqs).2).urlPool.length =
          (if reqs.length = 0 then z.urlPool.length
           else max z.urlPool.length 1) := by
  intro Env parse z req env reqs
  exact ⟨handle_pool parse z req env, (handleSeq_len parse reqs z).1,
    (handleSeq_len parse reqs z).2⟩

/-- Claim C5: when the first matching middleware never invokes its
continuation, the later middleware and the handler do not influence
the outcome at all, and the response is exactly what that middleware
left in the response slot of the context (that slot starting as the
default empty response); the same holds through handle for a resolved
route. -/
theorem claim_C5 :
    ∀ (Env : Type) (z z2 : ZeroF Env) (g : Ctx Env → Except JsErr (Ctx Env))
      (m2 m2b : Mw Env) (hdl hdlb : HandlerF Env) (params : Params)
      (req : Request) (env : Env) (path p1 p2 : String)
      (parse : String → Option String),
      z.middlewareRoutes = [⟨p1, fun c _ => g c⟩, ⟨p2, m2⟩] →
      z2.middlewareRoutes = [⟨p1, fun c _ => g c⟩, ⟨p2, m2b⟩] →
      matchMiddlewarePath p1 path = true →
      (execute z hdl params req env path =
        (match g ⟨params, req, env, emptyResponse⟩ with
         | Except.ok c => c.res
         | Except.error e => handleError e)
      ∧ execute z hdl params req env path = execute z2 hdlb params req env path
      ∧ (parse req.url = some path →
          getKV z.staticRoutes (toString (methodOf req.method) ++ path) =
            some hdl →
          (handle parse z req env).1 =
            (match g ⟨[], req, env, emptyResponse⟩ with
             | Except.ok c => c.res
             | Except.error e => handleError e))) := by
  intro Env z z2 g m2 m2b hdl hdlb params req env path p1 p2 parse hm hm2 hmatch
  have hexec : ∀ (w : ZeroF Env) (mw2 : Mw Env) (hd : HandlerF Env)
      (ps : Params),
      w.middlewareRoutes = [⟨p1, fun c _ => g c⟩, ⟨p2, mw2⟩] →
      execute w hd ps req env path =
        (match g ⟨ps, req, env, emptyResponse⟩ with
         | Except.ok c => c.res
         | Except.error e => handleError e) := by
    intro w mw2 hd ps hw
    have happ : applicableMws w path =
        (fun c _ => g c) ::
          (if matchMiddlewarePath p2 path then [mw2] else []) := by
      by_cases h2 : matchMiddlewarePath p2 path <;>
        simp [applicableMws, hw, hmatch, h2, List.filter]
    rw [execute, happ]
    rfl
  refine ⟨hexec z m2 hdl params hm, ?_, ?_⟩
  · rw [hexec z m2 hdl params hm, hexec z2 m2b hdlb params hm2]
  · intro hparse hstatic
    have hh : (handle parse z req env).1 =
        processRequest z req env path (methodOf req.method) := by
      cases hz : z.urlPool <;> simp [handle, getUrl, hz, hparse]
    rw [hh]
    simp only [processRequest, hstatic]
    exact hexec z m2 hdl [] hm

/-- Claim C5 witness: the short-circuiting middleware of zC5 fixes the
response regardless of the downstream middleware and handler. -/
theorem claim_C5_witness :
    execute zC5 hdlHi [] ⟨"u", "GET"⟩ () "/p" =
      ⟨418, none, RespBody.text "short"⟩ := by
  have h := (claim_C5 Unit zC5 zC5 gShort mwPass mwPass hdlHi hdlHi []
    ⟨"u", "GET"⟩ () "/p" "*" "*" (fun _ => some "/p") rfl rfl rfl).1
  simpa [gShort] using h

/-- Claim C4 (amended): every thrown value in the middleware-handler chain
is converted by the dispatcher into a 500 response whose JSON body
carries the extracted message under the field named error (the
exception message for Error instances, the generic fallback message
otherwise), and handle returns that response rather than propagating
the failure. -/
theorem claim_C4 :
    (∀ (Env : Type) (z : ZeroF Env) (hdl : HandlerF Env) (params : Params)
      (req : Request) (env : Env) (path : String) (e : JsErr),
      runChain (applicableMws z path) hdl ⟨params, req, env, emptyResponse⟩ =
        Except.error e →
      execute z hdl params req env path =
        ⟨500, some "application/json",
          RespBody.json (JsonVal.obj [("error", JsonVal.str (errMessage e))])⟩)
    ∧ (∀ (msg url : String) (parse : String → Option String),
      parse url = some "/boom" →
      (handle parse (zBoom msg) ⟨url, "GET"⟩ ()).1 =
        ⟨500, some "application/json",
          RespBody.json (JsonVal.obj [("error", JsonVal.str msg)])⟩) := by
  constructor
  · intro Env z hdl params req env path e he
    rw [execute, he]
    rfl
  · intro msg url parse hp
    have hpool : (zBoom msg).urlPool = [⟨"/"⟩] := rfl
    have hgu : getUrl parse (zBoom msg).urlPool url = (⟨"/boom"⟩, []) := by
      rw [hpool]
      simp [getUrl, hp]
    simp only [handle, hgu]
    rfl

/-- Claim C4 witness: a handler that throws an Error with message kaput
yields the contained 500 JSON response through handle. -/
theorem claim_C4_witness :
    (handle (fun _ => some "/boom") (zBoom "kaput") ⟨"http://x/boom", "GET"⟩
        ()).1 =
      ⟨500, some "application/json",
        RespBody.json (JsonVal.obj [("error", JsonVal.str "kaput")])⟩ :=
  claim_C4.2 "kaput" "http://x/boom" (fun _ => some "/boom") rfl

/-- Claim C4 counterexample to the claim as stated: for a handler raising an
Error with message boom, the error response's JSON body has no field
named message at all; the raised message is carried under the field
named error instead. -/
theorem claim_C4_counterexample :
    (handle (fun _ => some "/boom") (zBoom "boom") ⟨"http://x/boom", "GET"⟩
        ()).1.status = 500
    ∧ jsonField (handle (fun _ => some "/boom") (zBoom "boom")
        ⟨"http://x/boom", "GET"⟩ ()).1.body "message" = none
    ∧ jsonField (handle (fun _ => some "/boom") (zBoom "boom")
        ⟨"http://x/boom", "GET"⟩ ()).1.body "error" =
        some (JsonVal.str "boom") :=
  ⟨rfl, rfl, rfl⟩

end ZeroRouter
